import Mathlib

/-!
# gluehwodisp: a verification development of `src/main.cpp`

An Arduino sketch reads two DS18B20 temperature sensors, prints both values on
an LCD keypad shield and lights a seven-pixel WS2812B strip so that one can see
at a glance whether the mulled wine is too cold, right, or too hot.

The sketch is embedded as explicit state passing over a `World` record:
the sketch's globals, the pixel buffer of the LED strip, a trace of the calls made
to the peripherals, and the values the environment will still deliver
(`millis()`, `analogRead(0)`, `getTempC`).  Target is an 8-bit AVR board:
`int` has 16 bits and `unsigned long` has 32 bits.

`showShortMsg` is never called and the globals `lcd_key` and `nLastButton` are
never used; they are left out.
-/

namespace Gluehwodisp

/-! ## Machine arithmetic -/

/-- Subtraction of two `unsigned long` values, as `nNow - nLastTempRequestTime`
computes it: the difference is reduced modulo two to the 32. -/
def sub32 (a b : Nat) : Nat := (((a : Int) - (b : Int)) % 4294967296).toNat

/-- Addition of two `unsigned long` values (`nStartTime+3000`). -/
def add32 (a b : Nat) : Nat := (a + b) % 4294967296

/-- Conversion of an integer value to `int` (16 bits, two's complement), as the
cast `(int)` and avr-gcc's wrapping `int` arithmetic give it. -/
def toInt16 (x : Int) : Int := (x + 32768) % 65536 - 32768

/-! ## Float values -/

/-- The values a C `float` can hold: not-a-number, the two infinities, and the
finite values, each of which is a rational number. -/
inductive CFloat where
  | nan
  | ninf
  | pinf
  | fin (q : ℚ)
  deriving DecidableEq, Repr

namespace CFloat

/-- The C comparison `a < b` on floats: false as soon as one side is NaN. -/
def lt : CFloat → CFloat → Bool
  | nan, _ => false
  | _, nan => false
  | pinf, _ => false
  | _, ninf => false
  | ninf, _ => true
  | fin _, pinf => true
  | fin a, fin b => decide (a < b)

/-- The C comparison `a <= b` on floats: false as soon as one side is NaN. -/
def le : CFloat → CFloat → Bool
  | nan, _ => false
  | _, nan => false
  | ninf, _ => true
  | _, pinf => true
  | pinf, _ => false
  | fin _, ninf => false
  | fin a, fin b => decide (a ≤ b)

/-- Conversion of an `int` constant to `float`, as the comparison `t < 57`
converts its right-hand side; exact for the small constants of the sketch. -/
def ofInt (n : Int) : CFloat := fin n

end CFloat

/-! ## Constants of the sketch -/

/-- The `#define DS18B20_WAIT 750 / (1 << (12 - DS18B20_RESOLUTION))`, as a
function of the configured `DS18B20_RESOLUTION` (the sketch allows 9 to 12). -/
def DS18B20_WAIT (DS18B20_RESOLUTION : Nat) : Nat :=
  750 / (1 <<< (12 - DS18B20_RESOLUTION))

/-- Address of the first sensor. -/
def tempSensor1 : List Nat := [0x28, 0xFF, 0xD2, 0xA5, 0x24, 0x17, 0x03, 0xD7]

/-- Address of the second sensor. -/
def tempSensor2 : List Nat := [0x28, 0xFF, 0xC9, 0xFD, 0x24, 0x17, 0x03, 0x1F]

/-- Number of pixels of the strip. -/
def PIXEL_COUNT : Nat := 7

/-- Modelled from the spec: a colour of the indicator segment, as
`Adafruit_NeoPixel::Color(r, g, b)` of the LED library builds it: the three
8-bit channels packed into one 32-bit value, red uppermost. -/
def Color (r g b : Nat) : Nat := r * 65536 + g * 256 + b

def COLOR_RED : Nat := Color 255 0 0
def COLOR_GREEN : Nat := Color 0 255 0
def COLOR_BLUE : Nat := Color 0 0 255

def btnRIGHT : Int := 0
def btnUP : Int := 1
def btnDOWN : Int := 2
def btnLEFT : Int := 3
def btnSELECT : Int := 4
def btnNONE : Int := 5

/-! ## The world: globals, peripherals, inputs -/

/-- One call to a peripheral, in the order the sketch makes them. -/
inductive Event where
  | serialBegin (baud : Nat)
  | sensorsBegin
  | setResolution (bits : Nat)
  | setWaitForConversion (b : Bool)
  | requestTemperatures
  | getTempC (addr : List Nat) (result : CFloat)
  | stripBegin
  | setBrightness (b : Nat)
  | setPixelColor (n : Int) (c : Nat)
  | stripShow
  | lcdBegin (cols rows : Nat)
  | lcdClear
  | lcdSetCursor (col row : Nat)
  | lcdPrintStr (s : String)
  | lcdPrintInt (n : Int)
  | lcdPrintFloat (t : CFloat)
  | lcdPrintChar (c : Nat)
  | delay (ms : Nat)
  deriving DecidableEq, Repr

/-- State of the sketch and of its surroundings.

* `nLastTempRequestTime`, `adc_key_in1`, `adc_key_in2`: globals of the sketch;
* `pixels`: the pixel buffer of `ledStrip`; `leds`: what the strip shows, that
  is the buffer as last flushed by `show()`;
* `trace`: every call made to a peripheral so far, oldest first;
* `clock`, `adc`, `temps`: the results the next calls of `millis()`,
  `analogRead(0)` and `getTempC` will return, in order. -/
structure World where
  nLastTempRequestTime : Nat
  adc_key_in1 : Int
  adc_key_in2 : Int
  pixels : List Nat
  leds : List Nat
  trace : List Event
  clock : List Nat
  adc : List Nat
  temps : List CFloat
  deriving DecidableEq, Repr

/-- The world at power-up: globals at their initialisers, a dark strip of
`PIXEL_COUNT` pixels, nothing called yet, and the given inputs to come. -/
def World.boot (clock adc : List Nat) (temps : List CFloat) : World :=
  { nLastTempRequestTime := 0, adc_key_in1 := 0, adc_key_in2 := 0,
    pixels := List.replicate PIXEL_COUNT 0, leds := List.replicate PIXEL_COUNT 0,
    trace := [], clock := clock, adc := adc, temps := temps }

/-- Appends one peripheral call to the trace. -/
def World.emit (w : World) (e : Event) : World := { w with trace := w.trace ++ [e] }

/-! ### Peripherals -/

/-- Modelled from the spec: `millis()` of the Arduino core, the millisecond
counter as an `unsigned long`; the next value of the clock input, `none` when
the input is used up. -/
def millis (w : World) : Option (Nat × World) :=
  match w.clock with
  | [] => none
  | m :: rest => some (m % 4294967296, { w with clock := rest })

/-- Modelled from the spec: `analogRead(0)` of the Arduino core, the keypad ADC,
"returns an integer 0–1023"; `none` when the input is used up. -/
def analogRead (w : World) : Option (Int × World) :=
  match w.adc with
  | [] => none
  | v :: rest => some (((v % 1024 : Nat) : Int), { w with adc := rest })

/-- Modelled from the spec: `delay(ms)` of the Arduino core; it only lets time
pass, which the clock input accounts for. -/
def delay (ms : Nat) (w : World) : World := w.emit (.delay ms)

/-- Modelled from the spec: `getTempC(sensorId) -> float` of the sensor library,
"returns last completed conversion's value"; `none` when the input is used up. -/
def getTempC (addr : List Nat) (w : World) : Option (CFloat × World) :=
  match w.temps with
  | [] => none
  | t :: rest => some (t, { w with temps := rest, trace := w.trace ++ [.getTempC addr t] })

/-- Modelled from the spec: `requestTemperatures()` of the sensor library,
"starts conversion, returns immediately". -/
def requestTemperatures (w : World) : World := w.emit .requestTemperatures

/-- Modelled from the spec: `setPixelColor(index, color)` of the LED library,
"fixed segment length 7, per-call no implicit clear". The index parameter is a
`uint16_t`; an index outside the strip is ignored. The trace keeps the `int`
value the sketch passes. -/
def setPixelColor (n : Int) (c : Nat) (w : World) : World :=
  let n16 : Nat := (n % 65536).toNat
  { w with
    pixels := if n16 < PIXEL_COUNT then w.pixels.set n16 c else w.pixels
    trace := w.trace ++ [.setPixelColor n c] }

/-- Modelled from the spec: `show()` of the LED library, "flush to hardware". -/
def stripShow (w : World) : World :=
  { w with leds := w.pixels, trace := w.trace ++ [.stripShow] }

/-! ## The sketch -/

/-- Lines 62 to 73 of `read_LCD_buttons`: the ascending threshold table. -/
def thresholdTable (adc_key_in1 : Int) : Int :=
  if adc_key_in1 < 50 then btnRIGHT
  else if adc_key_in1 < 195 then btnUP
  else if adc_key_in1 < 380 then btnDOWN
  else if adc_key_in1 < 555 then btnLEFT
  else if adc_key_in1 < 790 then btnSELECT
  else btnNONE -- when all others fail, return this...

/-- Lines 59 to 73 of `read_LCD_buttons`: the decode of the settled reading,
that is the early `> 1000` check followed by the threshold table. -/
def decodeKey (adc_key_in1 : Int) : Int :=
  if adc_key_in1 > 1000 then btnNONE
  else thresholdTable adc_key_in1

/-- The `while (abs(adc_key_in1 - adc_key_in2) > 10)` loop of `read_LCD_buttons`:
both globals are read again until two successive readings agree within 10.
`fuel` bounds the number of condition checks. -/
def debounce : Nat → World → Option World
  | 0, _ => none
  | fuel + 1, w =>
    if (w.adc_key_in1 - w.adc_key_in2).natAbs > 10 then do
      let (a, w) ← analogRead w
      let w := { w with adc_key_in1 := a }
      let w := delay 5 w
      let (b, w) ← analogRead w
      let w := { w with adc_key_in2 := b }
      debounce fuel w
    else some w

/-- The function `read_LCD_buttons`. Every turn of its loop takes two readings
from the ADC input, so the length of that input plus one is fuel enough: the
result is `none` only when the input runs out before two readings agree. -/
def read_LCD_buttons (w : World) : Option (Int × World) := do
  let w := { w with adc_key_in1 := 0 }
  let w := { w with adc_key_in2 := 1023 }
  let w ← debounce (w.adc.length + 1) w
  pure (decodeKey w.adc_key_in1, w)

/-- The function `set_single_temp_display`. -/
def set_single_temp_display (t : CFloat) (led_idx_offset : Int) (w : World) : World :=
  if t.lt (CFloat.ofInt 57) then
    -- too cold
    setPixelColor (led_idx_offset + 0) COLOR_BLUE w
  else if t.lt (CFloat.ofInt 63) then
    -- slightly too cold
    let w := setPixelColor (led_idx_offset + 0) COLOR_BLUE w
    setPixelColor (led_idx_offset + 1) COLOR_GREEN w
  else if t.lt (CFloat.ofInt 67) then
    -- optimal
    setPixelColor (led_idx_offset + 1) COLOR_GREEN w
  else if t.lt (CFloat.ofInt 70) then
    -- slightly too hot
    let w := setPixelColor (led_idx_offset + 1) COLOR_GREEN w
    setPixelColor (led_idx_offset + 2) COLOR_RED w
  else
    -- too hot
    setPixelColor (led_idx_offset + 2) COLOR_RED w

/-- The function `set_leds_temp_display`. -/
def set_leds_temp_display (t1 t2 : CFloat) (w : World) : World :=
  let w := set_single_temp_display t1 0 w
  let w := set_single_temp_display t2 4 w
  stripShow w

/-- The function `display_degrees_celsius`. -/
def display_degrees_celsius (w : World) : World :=
  let w := w.emit (.lcdPrintStr " ")
  let w := w.emit (.lcdPrintChar 223) -- degree symbol
  w.emit (.lcdPrintStr "C")

/-- The function `display_temps`. -/
def display_temps (t1 t2 : CFloat) (w : World) : World :=
  let w := w.emit .lcdClear
  let w := w.emit (.lcdSetCursor 0 0)
  let w := w.emit (.lcdPrintStr "T1: ")
  let w := w.emit (.lcdPrintFloat t1)
  let w := display_degrees_celsius w
  let w := w.emit (.lcdSetCursor 0 1)
  let w := w.emit (.lcdPrintStr "T2: ")
  let w := w.emit (.lcdPrintFloat t2)
  display_degrees_celsius w

/-- The `while(millis() < nStartTime+3000)` loop of `message_on_boot`; `fuel`
bounds the number of condition checks. The countdown is computed in
`unsigned long`, cast to `int`, and incremented as an `int`. -/
def message_on_boot_loop (nStartTime : Nat) : Nat → World → Option World
  | 0, _ => none
  | fuel + 1, w => do
    let (m, w) ← millis w
    if m < add32 nStartTime 3000 then
      let (key, w) ← read_LCD_buttons w
      if key = btnRIGHT then
        -- skip init process if btnRIGHT is pressed
        pure w
      else
        let w := w.emit .lcdClear
        let w := w.emit (.lcdSetCursor 0 0)
        let w := w.emit (.lcdPrintStr "GLUEHWODISP v1.0")
        let w := w.emit (.lcdSetCursor 7 1)
        let (m2, w) ← millis w
        let secs : Int := toInt16 ((sub32 (add32 nStartTime 3000) m2 / 1000 : Nat) : Int)
        let w := w.emit (.lcdPrintInt (toInt16 (secs + 1)))
        let w := delay 200 w -- so display does not blink
        message_on_boot_loop nStartTime fuel w
    else pure w

/-- The function `message_on_boot`. Every check of its loop condition takes a
value from the clock input, so the length of that input plus one is fuel
enough: the result is `none` only when an input runs out. -/
def message_on_boot (w : World) : Option World := do
  let (nStartTime, w) ← millis w
  message_on_boot_loop nStartTime (w.clock.length + 1) w

/-- The function `setup`, for the configured `DS18B20_RESOLUTION`. -/
def setup (DS18B20_RESOLUTION : Nat) (w : World) : Option World := do
  let w := w.emit (.serialBegin 115200)
  let w := w.emit .sensorsBegin
  let w := w.emit (.setResolution DS18B20_RESOLUTION)
  let w := w.emit (.setWaitForConversion false)
  let w := requestTemperatures w
  let (m, w) ← millis w
  let w := { w with nLastTempRequestTime := m }
  let w := w.emit .stripBegin
  let w := w.emit (.setBrightness 128) -- 50% brightness
  let w := stripShow w
  let w := w.emit (.lcdBegin 16 2)
  message_on_boot w

/-- The function `loop`, for the configured `DS18B20_RESOLUTION`. The clock is
read once on entry and, when the wait has elapsed, once more after the new
request. -/
def loop (DS18B20_RESOLUTION : Nat) (w : World) : Option World := do
  let (nNow, w) ← millis w
  if sub32 nNow w.nLastTempRequestTime > DS18B20_WAIT DS18B20_RESOLUTION then
    let (t1, w) ← getTempC tempSensor1 w
    let (t2, w) ← getTempC tempSensor2 w
    let w := display_temps t1 t2 w
    let w := set_leds_temp_display t1 t2 w
    let w := requestTemperatures w
    let (m, w) ← millis w
    pure { w with nLastTempRequestTime := m } -- request again
  else pure w

/-! ## The expansion of `DS18B20_WAIT` at its place of use

`DS18B20_WAIT` is defined without parentheses around its body, so what it means
depends on the expression it is expanded into. The tokens of the two
`#define` lines and of the condition of `loop` are expanded here as the
preprocessor does, parsed with the precedences of C, and evaluated with the
types of C. -/

/-- The identifiers of the condition of `loop` and of the two `#define`s. -/
inductive Ident where
  | nNow
  | nLastTempRequestTime
  | DS18B20_WAIT
  | DS18B20_RESOLUTION
  deriving DecidableEq, Repr

/-- Tokens of the C expressions involved. -/
inductive Tok where
  | num (n : Nat)
  | name (x : Ident)
  | lpar
  | rpar
  | minus
  | slash
  | shl
  | gt
  deriving DecidableEq, Repr

/-- The `#define` table: lines 11 and 12, for the configured resolution. -/
def defines (DS18B20_RESOLUTION : Nat) : Ident → Option (List Tok)
  | .DS18B20_RESOLUTION => some [.num DS18B20_RESOLUTION]
  | .DS18B20_WAIT =>
    some [.num 750, .slash, .lpar, .num 1, .shl, .lpar, .num 12, .minus,
      .name .DS18B20_RESOLUTION, .rpar, .rpar]
  | _ => none

/-- The tokens of the condition of `loop`, line 198:
`nNow - nLastTempRequestTime > DS18B20_WAIT`. -/
def loopCondition : List Tok :=
  [.name .nNow, .minus, .name .nLastTempRequestTime, .gt, .name .DS18B20_WAIT]

/-- Preprocessing: every defined name is replaced by the tokens of its body,
which are scanned again; `depth` bounds the nesting of replacements. -/
def preprocess (res : Nat) : Nat → List Tok → List Tok
  | 0, ts => ts
  | depth + 1, ts =>
    ts.flatMap fun t =>
      match t with
      | .name x =>
        match defines res x with
        | some body => preprocess res depth body
        | none => [t]
      | _ => [t]

/-- C expressions over the operators involved. -/
inductive CExpr where
  | num (n : Nat)
  | var (x : Ident)
  | sub (a b : CExpr)
  | div (a b : CExpr)
  | shl (a b : CExpr)
  | gt (a b : CExpr)
  deriving DecidableEq, Repr

/-- The binary operator a token stands for at a precedence level of C, loosest
first: 0 relational, 1 shift, 2 additive, 3 multiplicative. -/
def binop : Nat → Tok → Option (CExpr → CExpr → CExpr)
  | 0, .gt => some .gt
  | 1, .shl => some .shl
  | 2, .minus => some .sub
  | 3, .slash => some .div
  | _, _ => none

/-- The tail of a left-associative chain at one level: while the next token is an
operator of the level, an operand is parsed with `operand` and folded in. -/
def parseRest (operand : List Tok → Option (CExpr × List Tok)) (level : Nat) :
    Nat → CExpr → List Tok → Option (CExpr × List Tok)
  | 0, _, _ => none
  | fuel + 1, lhs, ts =>
    match ts with
    | [] => some (lhs, [])
    | op :: rest =>
      match binop level op with
      | none => some (lhs, ts)
      | some mk => do
        let (rhs, rest) ← operand rest
        parseRest operand level fuel (mk lhs rhs) rest

/-- Parser of C expressions by precedence: level 4 is a primary expression (a
number, a name, or a parenthesised expression), a lower level is a chain of the
next level joined by the operators of the level. -/
def parseAt : Nat → Nat → List Tok → Option (CExpr × List Tok)
  | 0, _, _ => none
  | fuel + 1, level, ts =>
    if level ≥ 4 then
      match ts with
      | .num n :: rest => some (.num n, rest)
      | .name x :: rest => some (.var x, rest)
      | .lpar :: rest =>
        match parseAt fuel 0 rest with
        | some (e, .rpar :: rest) => some (e, rest)
        | _ => none
      | _ => none
    else do
      let (lhs, rest) ← parseAt fuel (level + 1) ts
      parseRest (fun ts => parseAt fuel (level + 1) ts) level fuel lhs rest

/-- A whole token list parsed as one expression. -/
def parseExpr (ts : List Tok) : Option CExpr :=
  match parseAt (5 * ts.length + 5) 0 ts with
  | some (e, []) => some e
  | _ => none

/-- The two C types involved. -/
inductive CType where
  | int
  | ulong
  deriving DecidableEq, Repr

/-- A typed C value. -/
structure CVal where
  ty : CType
  val : Int
  deriving DecidableEq, Repr

/-- The usual arithmetic conversions: `unsigned long` as soon as one operand is. -/
def commonType : CType → CType → CType
  | .int, .int => .int
  | _, _ => .ulong

/-- The value converted to a type; to `unsigned long` it is reduced modulo two
to the 32. -/
def convert (ty : CType) (v : Int) : Int :=
  match ty with
  | .int => toInt16 v
  | .ulong => v % 4294967296

/-- A result of a type, `none` when a signed result does not fit (undefined in C). -/
def result (ty : CType) (v : Int) : Option CVal :=
  match ty with
  | .int => if -32768 ≤ v ∧ v ≤ 32767 then some ⟨.int, v⟩ else none
  | .ulong => some ⟨.ulong, v % 4294967296⟩

/-- Evaluation of a C expression; `none` where C leaves the result undefined. -/
def evalC (env : Ident → Option CVal) : CExpr → Option CVal
  | .num n => if n ≤ 32767 then some ⟨.int, n⟩ else none
  | .var x => env x
  | .sub a b => do
    let x ← evalC env a
    let y ← evalC env b
    let ty := commonType x.ty y.ty
    result ty (convert ty x.val - convert ty y.val)
  | .div a b => do
    let x ← evalC env a
    let y ← evalC env b
    let ty := commonType x.ty y.ty
    if convert ty y.val = 0 then none
    else result ty (Int.tdiv (convert ty x.val) (convert ty y.val))
  | .shl a b => do
    let x ← evalC env a
    let y ← evalC env b
    let width : Int := match x.ty with | .int => 16 | .ulong => 32
    if 0 ≤ y.val ∧ y.val < width ∧ 0 ≤ x.val then result x.ty (x.val * 2 ^ y.val.toNat)
    else none
  | .gt a b => do
    let x ← evalC env a
    let y ← evalC env b
    let ty := commonType x.ty y.ty
    some ⟨.int, if convert ty x.val > convert ty y.val then 1 else 0⟩

/-- The variables of `loop` at its condition: both are `unsigned long`. -/
def loopEnv (nNow nLastTempRequestTime : Nat) : Ident → Option CVal
  | .nNow => some ⟨.ulong, (nNow % 4294967296 : Nat)⟩
  | .nLastTempRequestTime => some ⟨.ulong, (nLastTempRequestTime % 4294967296 : Nat)⟩
  | _ => none

/-! ## The bands as the specification words them -/

/-- The five bands of the specification, named after the comments of
`set_single_temp_display`. -/
inductive Band where
  | tooCold
  | slightlyTooCold
  | optimal
  | slightlyTooHot
  | tooHot
  deriving DecidableEq, Repr

/-- The interval of a band: (-inf,57), [57,63), [63,67), [67,70), [70,inf). -/
def Band.contains : Band → CFloat → Bool
  | .tooCold, t => t.lt (.ofInt 57)
  | .slightlyTooCold, t => CFloat.le (.ofInt 57) t && t.lt (.ofInt 63)
  | .optimal, t => CFloat.le (.ofInt 63) t && t.lt (.ofInt 67)
  | .slightlyTooHot, t => CFloat.le (.ofInt 67) t && t.lt (.ofInt 70)
  | .tooHot, t => CFloat.le (.ofInt 70) t

/-- The pattern of a band: the pixels it illuminates, relative to the offset,
each with its colour, in the order they are written. -/
def Band.pattern : Band → Int → List (Int × Nat)
  | .tooCold, offset => [(offset + 0, COLOR_BLUE)]
  | .slightlyTooCold, offset => [(offset + 0, COLOR_BLUE), (offset + 1, COLOR_GREEN)]
  | .optimal, offset => [(offset + 1, COLOR_GREEN)]
  | .slightlyTooHot, offset => [(offset + 1, COLOR_GREEN), (offset + 2, COLOR_RED)]
  | .tooHot, offset => [(offset + 2, COLOR_RED)]

/-- The pixel writes of a list, performed in order. -/
def applyWrites (ws : List (Int × Nat)) (w : World) : World :=
  ws.foldl (fun w p => setPixelColor p.1 p.2 w) w

/-- The three pixels of the window that starts at `offset`. -/
def window (offset : Nat) (strip : List Nat) : List Nat := (strip.drop offset).take 3

/-- What a window shows when the pattern of a band is written on a dark one. -/
def Band.windowLook (b : Band) : List Nat :=
  (applyWrites (b.pattern 0) (World.boot [] [] [])).pixels.take 3

/-- The world `setup` leaves behind at resolution 12 when the clock read 0
throughout and the RIGHT key (ADC readings 20 and 20) skipped the boot message:
a conversion has been requested at time 0 and the strip is dark. `clock` and
`temps` are the inputs still to come. -/
def afterSetup (clock : List Nat) (temps : List CFloat) : World :=
  { nLastTempRequestTime := 0, adc_key_in1 := 20, adc_key_in2 := 20,
    pixels := [0, 0, 0, 0, 0, 0, 0], leds := [0, 0, 0, 0, 0, 0, 0],
    trace := [.serialBegin 115200, .sensorsBegin, .setResolution 12,
      .setWaitForConversion false, .requestTemperatures, .stripBegin, .setBrightness 128,
      .stripShow, .lcdBegin 16 2, .delay 5],
    clock := clock, adc := [], temps := temps }

/-! ## Lemmas -/

section Lemmas

/-- A reading inside the interval of a band gets the pattern of that band. -/
theorem writes_of_contains (b : Band) (t : CFloat) (offset : Int) (w : World)
    (h : b.contains t = true) :
    set_single_temp_display t offset w = applyWrites (b.pattern offset) w := by
  cases t with
  | nan => cases b <;> simp [Band.contains, CFloat.lt, CFloat.le, CFloat.ofInt] at h
  | ninf =>
    cases b <;> simp [Band.contains, CFloat.lt, CFloat.le, CFloat.ofInt] at h
    simp [set_single_temp_display, CFloat.lt, CFloat.ofInt, applyWrites, Band.pattern]
  | pinf =>
    cases b <;> simp [Band.contains, CFloat.lt, CFloat.le, CFloat.ofInt] at h
    simp [set_single_temp_display, CFloat.lt, CFloat.ofInt, applyWrites, Band.pattern]
  | fin q =>
    cases b <;> simp [Band.contains, CFloat.lt, CFloat.le, CFloat.ofInt] at h <;>
      simp only [set_single_temp_display, CFloat.lt, CFloat.ofInt, applyWrites, Band.pattern,
        List.foldl, decide_eq_true_eq, Int.cast_ofNat] <;>
      split_ifs <;> first | rfl | (exfalso; linarith [h.1, h.2]) | (exfalso; linarith)

/-- The trace after a list of writes: one `setPixelColor` call for each. -/
theorem applyWrites_trace (ws : List (Int × Nat)) (w : World) :
    (applyWrites ws w).trace = w.trace ++ ws.map fun p => Event.setPixelColor p.1 p.2 := by
  induction ws generalizing w with
  | nil => simp [applyWrites]
  | cons p ps ih =>
    have step := ih (setPixelColor p.1 p.2 w)
    simp only [applyWrites, List.foldl_cons] at step ⊢
    rw [step]
    simp [setPixelColor]

/-- Two bands whose patterns have the same effect are the same band. -/
theorem pattern_injective (b c : Band) (offset : Int) (w : World)
    (h : applyWrites (b.pattern offset) w = applyWrites (c.pattern offset) w) : b = c := by
  have ht := congrArg World.trace h
  rw [applyWrites_trace, applyWrites_trace] at ht
  have hl := List.append_cancel_left ht
  cases b <;> cases c <;>
    first
    | rfl
    | (exfalso; revert hl
       simp [Band.pattern, COLOR_BLUE, COLOR_GREEN, COLOR_RED, Color])

/-- Whatever the reading, the writes performed are the pattern of some band. -/
theorem exists_pattern (t : CFloat) (offset : Int) (w : World) :
    ∃ b : Band, set_single_temp_display t offset w = applyWrites (b.pattern offset) w := by
  unfold set_single_temp_display
  split_ifs
  · exact ⟨.tooCold, rfl⟩
  · exact ⟨.slightlyTooCold, rfl⟩
  · exact ⟨.optimal, rfl⟩
  · exact ⟨.slightlyTooHot, rfl⟩
  · exact ⟨.tooHot, rfl⟩

/-- A reading that is a number lies in exactly one of the five intervals. -/
theorem contains_unique (t : CFloat) (h : t ≠ .nan) : ∃! b : Band, b.contains t = true := by
  cases t with
  | nan => exact absurd rfl h
  | ninf =>
    refine ⟨.tooCold, by simp [Band.contains, CFloat.lt, CFloat.ofInt], ?_⟩
    intro c hc
    cases c <;> simp [Band.contains, CFloat.lt, CFloat.le, CFloat.ofInt] at hc ⊢
  | pinf =>
    refine ⟨.tooHot, by simp [Band.contains, CFloat.le, CFloat.ofInt], ?_⟩
    intro c hc
    cases c <;> simp [Band.contains, CFloat.lt, CFloat.le, CFloat.ofInt] at hc ⊢
  | fin q =>
    have key : ∀ b c : Band, b.contains (.fin q) = true → c.contains (.fin q) = true → b = c := by
      intro b c hb hc
      cases b <;> cases c <;>
        simp [Band.contains, CFloat.lt, CFloat.le, CFloat.ofInt] at hb hc ⊢ <;> linarith
    have ex : ∃ b : Band, b.contains (.fin q) = true := by
      by_cases h1 : q < 57
      · exact ⟨.tooCold, by simp [Band.contains, CFloat.lt, CFloat.ofInt, h1]⟩
      by_cases h2 : q < 63
      · exact ⟨.slightlyTooCold, by
          simp [Band.contains, CFloat.lt, CFloat.le, CFloat.ofInt, h2]; linarith⟩
      by_cases h3 : q < 67
      · exact ⟨.optimal, by
          simp [Band.contains, CFloat.lt, CFloat.le, CFloat.ofInt, h3]; linarith⟩
      by_cases h4 : q < 70
      · exact ⟨.slightlyTooHot, by
          simp [Band.contains, CFloat.lt, CFloat.le, CFloat.ofInt, h4]; linarith⟩
      · exact ⟨.tooHot, by simp [Band.contains, CFloat.le, CFloat.ofInt]; linarith⟩
    obtain ⟨b, hb⟩ := ex
    exact ⟨b, hb, fun c hc => key c b hc hb⟩

/-- A write changes no pixel but the one its index, taken as a `uint16_t`, names. -/
theorem setPixelColor_pixels_ne (n : Int) (c : Nat) (w : World) (i : Nat)
    (h : (n % 65536).toNat ≠ i) : (setPixelColor n c w).pixels[i]? = w.pixels[i]? := by
  unfold setPixelColor
  simp only
  split_ifs
  · exact List.getElem?_set_ne h
  · rfl

/-- Writes change no pixel that none of them names. -/
theorem applyWrites_pixels_ne (ws : List (Int × Nat)) (w : World) (i : Nat)
    (h : ∀ p ∈ ws, (p.1 % 65536).toNat ≠ i) : (applyWrites ws w).pixels[i]? = w.pixels[i]? := by
  induction ws generalizing w with
  | nil => rfl
  | cons p ps ih =>
    have step := ih (setPixelColor p.1 p.2 w) fun q hq => h q (List.mem_cons_of_mem _ hq)
    simp only [applyWrites, List.foldl_cons] at step ⊢
    rw [step]
    exact setPixelColor_pixels_ne _ _ _ _ (h p (List.mem_cons_self _ _))

/-- Writes keep the length of the pixel buffer. -/
theorem applyWrites_pixels_length (ws : List (Int × Nat)) (w : World) :
    (applyWrites ws w).pixels.length = w.pixels.length := by
  induction ws generalizing w with
  | nil => rfl
  | cons p ps ih =>
    have step := ih (setPixelColor p.1 p.2 w)
    simp only [applyWrites, List.foldl_cons] at step ⊢
    rw [step]
    unfold setPixelColor
    simp only
    split_ifs <;> simp

/-- Writes touch the pixel buffer and the trace only. -/
theorem applyWrites_frame (ws : List (Int × Nat)) (w : World) :
    applyWrites ws w
      = { w with pixels := (applyWrites ws w).pixels, trace := (applyWrites ws w).trace } := by
  induction ws generalizing w with
  | nil => rfl
  | cons p ps ih =>
    have step := ih (setPixelColor p.1 p.2 w)
    simp only [applyWrites, List.foldl_cons] at step ⊢
    rw [step]
    rfl

/-- The pattern of a band stays within the three pixels from the offset on. -/
theorem pattern_window (b : Band) (offset : Int) :
    ∀ p ∈ b.pattern offset, p.1 = offset + 0 ∨ p.1 = offset + 1 ∨ p.1 = offset + 2 := by
  cases b <;> simp [Band.pattern]

/-- The body of `set_leds_temp_display`, as one expression. -/
theorem set_leds_temp_display_eq (t1 t2 : CFloat) (w : World) :
    set_leds_temp_display t1 t2 w
      = stripShow (set_single_temp_display t2 4 (set_single_temp_display t1 0 w)) := rfl

/-- The function `set_single_temp_display` touches the pixel buffer and the
trace only. -/
theorem set_single_temp_display_frame (t : CFloat) (offset : Int) (w : World) :
    set_single_temp_display t offset w
      = { w with pixels := (set_single_temp_display t offset w).pixels,
                 trace := (set_single_temp_display t offset w).trace } := by
  obtain ⟨b, hb⟩ := exists_pattern t offset w
  rw [hb]
  exact applyWrites_frame _ w

/-- The function `set_leds_temp_display` leaves the clock input alone. -/
theorem set_leds_temp_display_clock (t1 t2 : CFloat) (w : World) :
    (set_leds_temp_display t1 t2 w).clock = w.clock := by
  rw [set_leds_temp_display_eq]
  show (set_single_temp_display t2 4 (set_single_temp_display t1 0 w)).clock = w.clock
  rw [set_single_temp_display_frame t2, set_single_temp_display_frame t1]

/-- The function `set_leds_temp_display` leaves the sensor input alone. -/
theorem set_leds_temp_display_temps (t1 t2 : CFloat) (w : World) :
    (set_leds_temp_display t1 t2 w).temps = w.temps := by
  rw [set_leds_temp_display_eq]
  show (set_single_temp_display t2 4 (set_single_temp_display t1 0 w)).temps = w.temps
  rw [set_single_temp_display_frame t2, set_single_temp_display_frame t1]

/-- Reducing the minuend modulo two to the 32 does not change a difference of
`unsigned long` values. -/
theorem sub32_mod (a b : Nat) : sub32 (a % 4294967296) b = sub32 a b := by
  unfold sub32
  omega

/-- The wait is at most 750. -/
theorem DS18B20_WAIT_le (res : Nat) : DS18B20_WAIT res ≤ 750 := Nat.div_le_self _ _

/-- A tick before the wait has elapsed only takes one value from the clock. -/
theorem loop_not_ready (res : Nat) (w : World) (nNow : Nat) (rest : List Nat)
    (hc : w.clock = nNow :: rest)
    (h : sub32 nNow w.nLastTempRequestTime ≤ DS18B20_WAIT res) :
    loop res w = some { w with clock := rest } := by
  rw [← sub32_mod] at h
  simp [loop, millis, hc, not_lt.mpr h]

/-- A tick after the wait has elapsed: both sensors are read, the display and
the LEDs are updated, a conversion is requested and the clock is read again. -/
theorem loop_ready (res : Nat) (w : World) (nNow m : Nat) (ck : List Nat) (t1 t2 : CFloat)
    (ts : List CFloat) (hc : w.clock = nNow :: m :: ck) (ht : w.temps = t1 :: t2 :: ts)
    (h : DS18B20_WAIT res < sub32 nNow w.nLastTempRequestTime) :
    loop res w = some
      { requestTemperatures (set_leds_temp_display t1 t2 (display_temps t1 t2
          { w with clock := m :: ck, temps := ts,
                   trace := w.trace ++ [.getTempC tempSensor1 t1, .getTempC tempSensor2 t2] }))
        with clock := ck, nLastTempRequestTime := m % 4294967296 } := by
  rw [← sub32_mod] at h
  simp [loop, millis, hc, h, getTempC, ht, requestTemperatures, World.emit,
    set_leds_temp_display_clock, display_temps, display_degrees_celsius]

/-- The condition of `loop` after preprocessing, parsed. -/
theorem parse_loopCondition (res : Nat) :
    parseExpr (preprocess res 2 loopCondition)
      = some (.gt (.sub (.var .nNow) (.var .nLastTempRequestTime))
          (.div (.num 750) (.shl (.num 1) (.sub (.num 12) (.num res))))) := rfl

/-- The body of `DS18B20_WAIT` after preprocessing, parsed on its own. -/
theorem parse_wait (res : Nat) :
    parseExpr (preprocess res 2 [.name .DS18B20_WAIT])
      = some (.div (.num 750) (.shl (.num 1) (.sub (.num 12) (.num res)))) := rfl

/-- The value of the body of `DS18B20_WAIT` under the arithmetic of C. -/
theorem wait_value (res : Nat) (h9 : 9 ≤ res) (h12 : res ≤ 12) (env : Ident → Option CVal) :
    evalC env (.div (.num 750) (.shl (.num 1) (.sub (.num 12) (.num res))))
      = some ⟨.int, (DS18B20_WAIT res : Nat)⟩ := by
  interval_cases res <;>
    simp [evalC, commonType, convert, result, toInt16, DS18B20_WAIT] <;> decide

/-- The value of the condition of `loop` under the arithmetic of C: the
difference is taken in `unsigned long`, the wait is converted to it. -/
theorem loopCondition_value (res : Nat) (h9 : 9 ≤ res) (h12 : res ≤ 12) (nNow last : Nat) :
    evalC (loopEnv nNow last) (.gt (.sub (.var .nNow) (.var .nLastTempRequestTime))
          (.div (.num 750) (.shl (.num 1) (.sub (.num 12) (.num res)))))
      = some ⟨.int, if DS18B20_WAIT res < sub32 nNow last then 1 else 0⟩ := by
  rw [evalC, wait_value res h9 h12]
  have hw := DS18B20_WAIT_le res
  have h1 : ((DS18B20_WAIT res : Nat) : Int) % 4294967296 = (DS18B20_WAIT res : Nat) := by omega
  have h2 : ((nNow : Int) % 4294967296 - (last : Int) % 4294967296) % 4294967296
      = ((nNow : Int) - (last : Int)) % 4294967296 := by omega
  simp [evalC, loopEnv, commonType, convert, result, sub32, h1, h2]

/-- The keypad read when the first two ADC readings already agree within 10:
the first of them is decoded. -/
theorem read_LCD_buttons_settled (w : World) (a b : Nat) (rest : List Nat)
    (hadc : w.adc = a :: b :: rest)
    (hs : (((a % 1024 : Nat) : Int) - ((b % 1024 : Nat) : Int)).natAbs ≤ 10) :
    read_LCD_buttons w = some (decodeKey ((a % 1024 : Nat) : Int),
      { w with adc_key_in1 := ((a % 1024 : Nat) : Int), adc_key_in2 := ((b % 1024 : Nat) : Int),
               adc := rest, trace := w.trace ++ [.delay 5] }) := by
  have hs2 : ¬ 10 < ((a : Int) % 1024 - (b : Int) % 1024).natAbs := by omega
  simp [read_LCD_buttons, debounce, analogRead, hadc, delay, World.emit, hs2]

/-- Every reading has its band: the one whose interval holds it, or, for a
NaN, the band of the last branch; the writes are the pattern of that band. -/
theorem exists_band (t : CFloat) :
    ∃ b : Band, (b.contains t = true ∨ (t = .nan ∧ b = .tooHot)) ∧
      ∀ (offset : Int) (w : World),
        set_single_temp_display t offset w = applyWrites (b.pattern offset) w := by
  by_cases h : t = .nan
  · subst h
    refine ⟨.tooHot, Or.inr ⟨rfl, rfl⟩, fun offset w => ?_⟩
    simp [set_single_temp_display, CFloat.lt, CFloat.ofInt, applyWrites, Band.pattern]
  · obtain ⟨b, hb, _⟩ := contains_unique t h
    exact ⟨b, Or.inl hb, fun offset w => writes_of_contains b t offset w hb⟩

/-- The pixel buffer after a list of writes depends on the buffer before only. -/
theorem applyWrites_pixels_congr (ws : List (Int × Nat)) (w v : World)
    (h : w.pixels = v.pixels) : (applyWrites ws w).pixels = (applyWrites ws v).pixels := by
  induction ws generalizing w v with
  | nil => exact h
  | cons p ps ih =>
    have step := ih (setPixelColor p.1 p.2 w) (setPixelColor p.1 p.2 v)
      (by simp [setPixelColor, h])
    simpa only [applyWrites, List.foldl_cons] using step

end Lemmas

/-! ## The claims -/

/-- C1: for every reading and every offset, `set_single_temp_display` performs
exactly the pixel writes of the band whose interval holds the reading (blue at
offset+0 below 57, blue and green from 57, green alone from 63, green and red
from 67, red alone from 70); the writes are the pattern of exactly one band
whatever the reading is, a reading that is a number lies in exactly one
interval, and the boundaries are exact: 57 gives blue and green, 56.999 blue
only, 67 green and red, 66.999 green only (also at the `float` nearest to
56.999 and 66.999). A NaN lies in no interval and takes the last branch. -/
theorem set_single_temp_display_bands (t : CFloat) (offset : Int) (w : World) :
    (∀ b : Band, b.contains t = true →
      set_single_temp_display t offset w = applyWrites (b.pattern offset) w) ∧
    (∃! b : Band, set_single_temp_display t offset w = applyWrites (b.pattern offset) w) ∧
    (t ≠ .nan → ∃! b : Band, b.contains t = true) ∧
    (set_single_temp_display (.fin 57) offset w).trace
      = w.trace ++ [.setPixelColor (offset + 0) COLOR_BLUE, .setPixelColor (offset + 1) COLOR_GREEN] ∧
    (set_single_temp_display (.fin (56999 / 1000)) offset w).trace
      = w.trace ++ [.setPixelColor (offset + 0) COLOR_BLUE] ∧
    (set_single_temp_display (.fin (7470973 / 131072)) offset w).trace
      = w.trace ++ [.setPixelColor (offset + 0) COLOR_BLUE] ∧
    (set_single_temp_display (.fin 67) offset w).trace
      = w.trace ++ [.setPixelColor (offset + 1) COLOR_GREEN, .setPixelColor (offset + 2) COLOR_RED] ∧
    (set_single_temp_display (.fin (66999 / 1000)) offset w).trace
      = w.trace ++ [.setPixelColor (offset + 1) COLOR_GREEN] ∧
    (set_single_temp_display (.fin (8781693 / 131072)) offset w).trace
      = w.trace ++ [.setPixelColor (offset + 1) COLOR_GREEN] ∧
    (set_single_temp_display .nan offset w).trace
      = w.trace ++ [.setPixelColor (offset + 2) COLOR_RED] := by
  refine ⟨fun b hb => writes_of_contains b t offset w hb, ?_, contains_unique t, ?_, ?_, ?_, ?_, ?_,
    ?_, ?_⟩
  · obtain ⟨b, hb⟩ := exists_pattern t offset w
    exact ⟨b, hb, fun c hc => pattern_injective c b offset w (hc.symm.trans hb)⟩
  all_goals
    simp only [set_single_temp_display, CFloat.lt, CFloat.ofInt, decide_eq_true_eq]
    norm_num [setPixelColor]

/-- C6: for every pair of readings, `set_leds_temp_display` applies the pattern
of the band of the first reading at offset 0, then the pattern of the band of
the second reading at offset 4, and then flushes the strip; for the readings
65 and 58 the calls are exactly: pixel 1 green, pixel 4 blue, pixel 5 green,
`show()`. -/
theorem set_leds_temp_display_patterns (w : World) :
    (∀ (t1 t2 : CFloat) (b1 b2 : Band), b1.contains t1 = true → b2.contains t2 = true →
      set_leds_temp_display t1 t2 w
        = stripShow (applyWrites (b2.pattern 4) (applyWrites (b1.pattern 0) w))) ∧
    (∀ t1 t2 : CFloat, ∃ b1 b2 : Band,
      set_leds_temp_display t1 t2 w
        = stripShow (applyWrites (b2.pattern 4) (applyWrites (b1.pattern 0) w))) ∧
    (∀ t1 t2 : CFloat,
      (set_leds_temp_display t1 t2 w).leds = (set_leds_temp_display t1 t2 w).pixels) ∧
    (set_leds_temp_display (.fin 65) (.fin 58) w).trace
      = w.trace ++ [.setPixelColor 1 COLOR_GREEN, .setPixelColor 4 COLOR_BLUE,
          .setPixelColor 5 COLOR_GREEN, .stripShow] := by
  refine ⟨?_, ?_, fun _ _ => rfl, ?_⟩
  · intro t1 t2 b1 b2 h1 h2
    rw [set_leds_temp_display_eq, writes_of_contains b1 t1 0 w h1,
      writes_of_contains b2 t2 4 _ h2]
  · intro t1 t2
    obtain ⟨b1, h1⟩ := exists_pattern t1 0 w
    obtain ⟨b2, h2⟩ := exists_pattern t2 4 (applyWrites (b1.pattern 0) w)
    refine ⟨b1, b2, ?_⟩
    rw [set_leds_temp_display_eq, h1, h2]
  · simp only [set_leds_temp_display, set_single_temp_display, CFloat.lt, CFloat.ofInt,
      decide_eq_true_eq]
    norm_num [setPixelColor, stripShow]

/-- C7: frame of the LED update. For every state of the strip and every pair of
readings, the calls `set_leds_temp_display` makes are writes for the first
sensor, all at pixels 0, 1 or 2, then writes for the second sensor, all at
pixels 4, 5 or 6, then `show()`; every index written is below `PIXEL_COUNT`,
pixel 3 is never written and keeps its colour, every pixel that no write names
keeps the colour it had, and the buffer keeps its length. -/
theorem set_leds_temp_display_frame (t1 t2 : CFloat) (w : World) :
    ∃ ws1 ws2 : List (Int × Nat),
      (set_leds_temp_display t1 t2 w).trace
        = w.trace ++ (ws1 ++ ws2).map (fun p => Event.setPixelColor p.1 p.2) ++ [.stripShow] ∧
      (∀ p ∈ ws1, p.1 = 0 ∨ p.1 = 1 ∨ p.1 = 2) ∧
      (∀ p ∈ ws2, p.1 = 4 ∨ p.1 = 5 ∨ p.1 = 6) ∧
      (∀ p ∈ ws1 ++ ws2, 0 ≤ p.1 ∧ p.1 < (PIXEL_COUNT : Int) ∧ p.1 ≠ 3) ∧
      (∀ i : Nat, (∀ p ∈ ws1 ++ ws2, p.1 ≠ (i : Int)) →
        (set_leds_temp_display t1 t2 w).pixels[i]? = w.pixels[i]?) ∧
      (set_leds_temp_display t1 t2 w).pixels[3]? = w.pixels[3]? ∧
      (set_leds_temp_display t1 t2 w).pixels.length = w.pixels.length := by
  obtain ⟨b1, h1⟩ := exists_pattern t1 0 w
  obtain ⟨b2, h2⟩ := exists_pattern t2 4 (applyWrites (b1.pattern 0) w)
  have hw1 : ∀ p ∈ b1.pattern 0, p.1 = 0 ∨ p.1 = 1 ∨ p.1 = 2 := by
    intro p hp
    simpa using pattern_window b1 0 p hp
  have hw2 : ∀ p ∈ b2.pattern 4, p.1 = 4 ∨ p.1 = 5 ∨ p.1 = 6 := by
    intro p hp
    have := pattern_window b2 4 p hp
    norm_num at this
    exact this
  have hall : ∀ p ∈ b1.pattern 0 ++ b2.pattern 4, 0 ≤ p.1 ∧ p.1 < (PIXEL_COUNT : Int) ∧ p.1 ≠ 3 := by
    intro p hp
    simp only [PIXEL_COUNT]
    rcases List.mem_append.mp hp with hp | hp
    · rcases hw1 p hp with h | h | h <;> omega
    · rcases hw2 p hp with h | h | h <;> omega
  have hpix : ∀ i : Nat, (∀ p ∈ b1.pattern 0 ++ b2.pattern 4, p.1 ≠ (i : Int)) →
      (set_leds_temp_display t1 t2 w).pixels[i]? = w.pixels[i]? := by
    intro i hi
    have hne : ∀ p ∈ b1.pattern 0 ++ b2.pattern 4, (p.1 % 65536).toNat ≠ i := by
      intro p hp
      have hr := hall p hp
      have hd := hi p hp
      simp only [PIXEL_COUNT] at hr
      omega
    rw [set_leds_temp_display_eq, h1, h2]
    simp only [stripShow]
    rw [applyWrites_pixels_ne _ _ _ fun p hp => hne p (List.mem_append_right _ hp),
      applyWrites_pixels_ne _ _ _ fun p hp => hne p (List.mem_append_left _ hp)]
  refine ⟨b1.pattern 0, b2.pattern 4, ?_, hw1, hw2, hall, hpix, ?_, ?_⟩
  · rw [set_leds_temp_display_eq, h1, h2]
    simp only [stripShow, applyWrites_trace, List.map_append, List.append_assoc]
  · refine hpix 3 fun p hp => ?_
    have hr := (hall p hp).2.2
    exact_mod_cast hr
  · rw [set_leds_temp_display_eq, h1, h2]
    simp only [stripShow, applyWrites_pixels_length]

/-- C5: a tick that is not ready is a no-op. For every state and every clock
value with `now - lastRequestTime <= waitDuration` (the difference taken in
`unsigned long`), `loop` returns the state it was given, less the one clock
value it read: `nLastTempRequestTime`, the pixel buffer, the LEDs and the
trace of peripheral calls (so the display) are unchanged, no sensor value is
read and no conversion is requested. -/
theorem loop_noop_when_not_ready (res : Nat) (w : World) (nNow : Nat) (rest : List Nat)
    (hc : w.clock = nNow :: rest)
    (h : sub32 nNow w.nLastTempRequestTime ≤ DS18B20_WAIT res) :
    ∃ w2 : World, loop res w = some w2 ∧ w2 = { w with clock := rest } ∧
      w2.nLastTempRequestTime = w.nLastTempRequestTime ∧ w2.pixels = w.pixels ∧
      w2.leds = w.leds ∧ w2.trace = w.trace ∧ w2.temps = w.temps :=
  ⟨_, loop_not_ready res w nNow rest hc h, rfl, rfl, rfl, rfl, rfl, rfl⟩

/-- C5 at a concrete input: last request at 0, clock at 750, resolution 12. -/
theorem loop_noop_when_not_ready_witness :
    (World.boot [750] [] [.fin 65, .fin 58]).clock = [750] ∧
    sub32 750 (World.boot [750] [] [.fin 65, .fin 58]).nLastTempRequestTime ≤ DS18B20_WAIT 12 ∧
    ∃ w2 : World, loop 12 (World.boot [750] [] [.fin 65, .fin 58]) = some w2 ∧
      w2 = { World.boot [750] [] [.fin 65, .fin 58] with clock := [] } ∧
      w2.nLastTempRequestTime = 0 ∧ w2.pixels = List.replicate 7 0 ∧
      w2.leds = List.replicate 7 0 ∧ w2.trace = [] ∧ w2.temps = [.fin 65, .fin 58] :=
  ⟨rfl, by decide,
    loop_noop_when_not_ready 12 (World.boot [750] [] [.fin 65, .fin 58]) 750 [] rfl (by decide)⟩

/-- C2: the readiness check of `loop` is the strict comparison
`now - lastRequestTime > waitDuration`, the difference being taken in
`unsigned long`. For every resolution the sketch allows and all values of the
two times: the condition of line 198, preprocessed, parsed and evaluated as C
does, is 1 when the difference is strictly greater than the wait and 0
otherwise, so 0 at exact equality; without wrap-around the difference is the
plain one; and `loop` skips its body in the one case and runs it (reading both
sensors and taking a new time stamp) in the other. -/
theorem loop_condition_strict (res : Nat) (h9 : 9 ≤ res) (h12 : res ≤ 12) (nNow last : Nat) :
    (parseExpr (preprocess res 2 loopCondition)).bind (evalC (loopEnv nNow last))
      = some ⟨.int, if DS18B20_WAIT res < sub32 nNow last then 1 else 0⟩ ∧
    (sub32 nNow last = DS18B20_WAIT res →
      (parseExpr (preprocess res 2 loopCondition)).bind (evalC (loopEnv nNow last))
        = some ⟨.int, 0⟩) ∧
    (last ≤ nNow → nNow < 4294967296 → sub32 nNow last = nNow - last) ∧
    (∀ (w : World) (rest : List Nat), w.nLastTempRequestTime = last → w.clock = nNow :: rest →
      sub32 nNow last ≤ DS18B20_WAIT res → loop res w = some { w with clock := rest }) ∧
    (∀ (w : World) (m : Nat) (ck : List Nat) (t1 t2 : CFloat) (ts : List CFloat),
      w.nLastTempRequestTime = last → w.clock = nNow :: m :: ck → w.temps = t1 :: t2 :: ts →
      DS18B20_WAIT res < sub32 nNow last →
      ∃ w2 : World, loop res w = some w2 ∧ w2.temps = ts ∧
        w2.nLastTempRequestTime = m % 4294967296 ∧ w2.clock = ck) := by
  have hv := loopCondition_value res h9 h12 nNow last
  refine ⟨?_, ?_, ?_, ?_, ?_⟩
  · rw [parse_loopCondition]
    exact hv
  · intro heq
    rw [parse_loopCondition]
    simpa [heq] using hv
  · intro hle hlt
    unfold sub32
    omega
  · intro w rest hl hc h
    exact loop_not_ready res w nNow rest hc (hl ▸ h)
  · intro w m ck t1 t2 ts hl hc ht h
    refine ⟨_, loop_ready res w nNow m ck t1 t2 ts hc ht (hl ▸ h), ?_, rfl, rfl⟩
    show (set_leds_temp_display t1 t2 _).temps = ts
    rw [set_leds_temp_display_temps]
    rfl

/-- C2 at a concrete input: resolution 12, last request at 1000, clock at 1750
(exact equality, not ready) . -/
theorem loop_condition_strict_witness :
    9 ≤ 12 ∧ 12 ≤ 12 ∧ sub32 1750 1000 = DS18B20_WAIT 12 ∧
    (parseExpr (preprocess 12 2 loopCondition)).bind (evalC (loopEnv 1750 1000))
      = some ⟨.int, if DS18B20_WAIT 12 < sub32 1750 1000 then 1 else 0⟩ ∧
    (parseExpr (preprocess 12 2 loopCondition)).bind (evalC (loopEnv 1750 1000))
      = some ⟨.int, 0⟩ ∧
    sub32 1750 1000 = 1750 - 1000 :=
  ⟨by decide, by decide, by decide,
    (loop_condition_strict 12 (by decide) (by decide) 1750 1000).1,
    (loop_condition_strict 12 (by decide) (by decide) 1750 1000).2.1 (by decide),
    (loop_condition_strict 12 (by decide) (by decide) 1750 1000).2.2.1 (by decide) (by decide)⟩

/-- C3: for every resolution from 9 to 12 bits, `DS18B20_WAIT` is
750 / 2^(12 - resolution) in integer division, that is 750, 375, 187 and 93;
the body of the macro, preprocessed, parsed and evaluated on its own, has this
value, and expanded without parentheses into the condition of `loop` it is,
whole, the right-hand side of the comparison and has the same value there. -/
theorem DS18B20_WAIT_value (res : Nat) (h9 : 9 ≤ res) (h12 : res ≤ 12) :
    DS18B20_WAIT res = 750 / 2 ^ (12 - res) ∧
    DS18B20_WAIT 12 = 750 ∧ DS18B20_WAIT 11 = 375 ∧ DS18B20_WAIT 10 = 187 ∧
    DS18B20_WAIT 9 = 93 ∧
    (∀ env : Ident → Option CVal,
      (parseExpr (preprocess res 2 [.name .DS18B20_WAIT])).bind (evalC env)
        = some ⟨.int, ((750 / 2 ^ (12 - res) : Nat) : Int)⟩) ∧
    (∃ rhs : CExpr,
      parseExpr (preprocess res 2 loopCondition)
        = some (.gt (.sub (.var .nNow) (.var .nLastTempRequestTime)) rhs) ∧
      ∀ env : Ident → Option CVal,
        evalC env rhs = some ⟨.int, ((750 / 2 ^ (12 - res) : Nat) : Int)⟩) := by
  have hw : DS18B20_WAIT res = 750 / 2 ^ (12 - res) := by
    unfold DS18B20_WAIT
    rw [Nat.one_shiftLeft]
  refine ⟨hw, by decide, by decide, by decide, by decide, ?_, ?_⟩
  · intro env
    rw [parse_wait, ← hw]
    exact wait_value res h9 h12 env
  · refine ⟨_, parse_loopCondition res, ?_⟩
    intro env
    rw [← hw]
    exact wait_value res h9 h12 env

/-- C3 at a concrete input: resolution 10, where the wait is 187. -/
theorem DS18B20_WAIT_value_witness :
    9 ≤ 10 ∧ 10 ≤ 12 ∧
    DS18B20_WAIT 10 = 750 / 2 ^ (12 - 10) ∧
    (parseExpr (preprocess 10 2 [.name .DS18B20_WAIT])).bind (evalC (loopEnv 0 0))
      = some ⟨.int, ((750 / 2 ^ (12 - 10) : Nat) : Int)⟩ :=
  ⟨by decide, by decide, (DS18B20_WAIT_value 10 (by decide) (by decide)).1,
    (DS18B20_WAIT_value 10 (by decide) (by decide)).2.2.2.2.2.1 (loopEnv 0 0)⟩

/-- C10: the readiness check is right across the roll-over of the 32-bit
millisecond counter. With `now` and `lastRequestTime` the true times `T + e`
and `T` reduced modulo two to the 32 and an elapsed time `e` below two to the
32, the difference `loop` computes is `e`; the check, as a C expression and as
`loop` acts on it, is true exactly when `e` exceeds the wait. -/
theorem loop_condition_rollover (res : Nat) (h9 : 9 ≤ res) (h12 : res ≤ 12) (T e : Nat)
    (he : e < 4294967296) :
    sub32 ((T + e) % 4294967296) (T % 4294967296) = e ∧
    (DS18B20_WAIT res < sub32 ((T + e) % 4294967296) (T % 4294967296) ↔ DS18B20_WAIT res < e) ∧
    (parseExpr (preprocess res 2 loopCondition)).bind
        (evalC (loopEnv ((T + e) % 4294967296) (T % 4294967296)))
      = some ⟨.int, if DS18B20_WAIT res < e then 1 else 0⟩ ∧
    (∀ (w : World) (rest : List Nat), w.nLastTempRequestTime = T % 4294967296 →
      w.clock = ((T + e) % 4294967296) :: rest →
      e ≤ DS18B20_WAIT res → loop res w = some { w with clock := rest }) ∧
    (∀ (w : World) (m : Nat) (ck : List Nat) (t1 t2 : CFloat) (ts : List CFloat),
      w.nLastTempRequestTime = T % 4294967296 → w.clock = ((T + e) % 4294967296) :: m :: ck →
      w.temps = t1 :: t2 :: ts → DS18B20_WAIT res < e →
      ∃ w2 : World, loop res w = some w2 ∧ w2.temps = ts ∧
        w2.nLastTempRequestTime = m % 4294967296) := by
  have hs : sub32 ((T + e) % 4294967296) (T % 4294967296) = e := by
    unfold sub32
    omega
  refine ⟨hs, by rw [hs], ?_, ?_, ?_⟩
  · rw [parse_loopCondition, Option.some_bind, loopCondition_value res h9 h12, hs]
  · intro w rest hl hc h
    exact loop_not_ready res w _ rest hc (by rw [hl, hs]; exact h)
  · intro w m ck t1 t2 ts hl hc ht h
    refine ⟨_, loop_ready res w _ m ck t1 t2 ts hc ht (by rw [hl, hs]; exact h), ?_, rfl⟩
    show (set_leds_temp_display t1 t2 _).temps = ts
    rw [set_leds_temp_display_temps]
    rfl

/-- C10 at a concrete input: the last request 100 ms before the counter rolls
over, 1000 ms elapsed, so that `now` is 900 and numerically below
`lastRequestTime`, 4294967196; the check is true. -/
theorem loop_condition_rollover_witness :
    9 ≤ 12 ∧ 12 ≤ 12 ∧ 1000 < 4294967296 ∧
    (4294967196 + 1000) % 4294967296 = 900 ∧
    sub32 ((4294967196 + 1000) % 4294967296) (4294967196 % 4294967296) = 1000 ∧
    (parseExpr (preprocess 12 2 loopCondition)).bind
        (evalC (loopEnv ((4294967196 + 1000) % 4294967296) (4294967196 % 4294967296)))
      = some ⟨.int, if DS18B20_WAIT 12 < 1000 then 1 else 0⟩ :=
  ⟨by decide, by decide, by decide, by decide,
    (loop_condition_rollover 12 (by decide) (by decide) 4294967196 1000 (by decide)).1,
    (loop_condition_rollover 12 (by decide) (by decide) 4294967196 1000 (by decide)).2.2.1⟩

/-- C4, as amended: the timing scenario at resolution 12 (wait 750), for all
sensor readings `t1`, `t2` and every value `m` the clock shows after the new
request. The RIGHT key (ADC reading 20) skips the boot message, so `setup`,
run with the clock at 0, returns at once: it has requested a conversion and
set `nLastTempRequestTime` to 0, and the strip is dark. A tick of `loop` with
the clock at 749 only reads the clock. A tick with the clock at 751 reads both
sensor values, prints both on the display, writes the pattern of the band of
`t1` at offset 0 and of `t2` at offset 4, flushes the strip, requests a
conversion and sets `nLastTempRequestTime` to `m`, the value of the clock read
after the request: 751 when the clock still reads 751. The run with readings 65
and 58 and the clock then at 760 is written out in full. -/
theorem timing_scenario (t1 t2 : CFloat) (ts : List CFloat) (m : Nat) :
    decodeKey 20 = btnRIGHT ∧
    (∃ (w1 w2 w3 : World) (b1 b2 : Band),
      setup 12 (World.boot [0, 0, 0, 749, 751, m] [20, 20] (t1 :: t2 :: ts)) = some w1 ∧
      w1.nLastTempRequestTime = 0 ∧
      w1.trace = [.serialBegin 115200, .sensorsBegin, .setResolution 12,
        .setWaitForConversion false, .requestTemperatures, .stripBegin, .setBrightness 128,
        .stripShow, .lcdBegin 16 2, .delay 5] ∧
      w1.pixels = [0, 0, 0, 0, 0, 0, 0] ∧
      loop 12 w1 = some w2 ∧
      w2 = { w1 with clock := [751, m] } ∧
      loop 12 w2 = some w3 ∧
      (b1.contains t1 = true ∨ (t1 = .nan ∧ b1 = .tooHot)) ∧
      (b2.contains t2 = true ∨ (t2 = .nan ∧ b2 = .tooHot)) ∧
      w3.trace = w1.trace ++
        [.getTempC tempSensor1 t1, .getTempC tempSensor2 t2,
          .lcdClear,
          .lcdSetCursor 0 0, .lcdPrintStr "T1: ", .lcdPrintFloat t1,
          .lcdPrintStr " ", .lcdPrintChar 223, .lcdPrintStr "C",
          .lcdSetCursor 0 1, .lcdPrintStr "T2: ", .lcdPrintFloat t2,
          .lcdPrintStr " ", .lcdPrintChar 223, .lcdPrintStr "C"] ++
        (b1.pattern 0).map (fun p => Event.setPixelColor p.1 p.2) ++
        (b2.pattern 4).map (fun p => Event.setPixelColor p.1 p.2) ++
        [.stripShow, .requestTemperatures] ∧
      w3.pixels = (applyWrites (b2.pattern 4) (applyWrites (b1.pattern 0) w1)).pixels ∧
      w3.leds = w3.pixels ∧
      w3.nLastTempRequestTime = m % 4294967296 ∧
      (m = 751 → w3.nLastTempRequestTime = 751) ∧
      w3.temps = ts ∧
      w3.clock = []) ∧
    loop 12 (afterSetup [751, 760] [.fin 65, .fin 58]) = some
      { nLastTempRequestTime := 760, adc_key_in1 := 20, adc_key_in2 := 20,
        pixels := [0, COLOR_GREEN, 0, 0, COLOR_BLUE, COLOR_GREEN, 0],
        leds := [0, COLOR_GREEN, 0, 0, COLOR_BLUE, COLOR_GREEN, 0],
        trace := [.serialBegin 115200, .sensorsBegin, .setResolution 12,
          .setWaitForConversion false, .requestTemperatures, .stripBegin, .setBrightness 128,
          .stripShow, .lcdBegin 16 2, .delay 5,
          .getTempC tempSensor1 (.fin 65), .getTempC tempSensor2 (.fin 58),
          .lcdClear,
          .lcdSetCursor 0 0, .lcdPrintStr "T1: ", .lcdPrintFloat (.fin 65),
          .lcdPrintStr " ", .lcdPrintChar 223, .lcdPrintStr "C",
          .lcdSetCursor 0 1, .lcdPrintStr "T2: ", .lcdPrintFloat (.fin 58),
          .lcdPrintStr " ", .lcdPrintChar 223, .lcdPrintStr "C",
          .setPixelColor 1 COLOR_GREEN, .setPixelColor 4 COLOR_BLUE,
          .setPixelColor 5 COLOR_GREEN, .stripShow, .requestTemperatures],
        clock := [], adc := [], temps := [] } := by
  have hready : DS18B20_WAIT 12 < sub32 751 0 := by decide
  obtain ⟨b1, hb1, hw1⟩ := exists_band t1
  obtain ⟨b2, hb2, hw2⟩ := exists_band t2
  have hleds : ∀ v : World, set_leds_temp_display t1 t2 v
      = stripShow (applyWrites (b2.pattern 4) (applyWrites (b1.pattern 0) v)) := by
    intro v
    rw [set_leds_temp_display_eq, hw1, hw2]
  refine ⟨by decide, ⟨afterSetup [749, 751, m] (t1 :: t2 :: ts),
    { afterSetup [749, 751, m] (t1 :: t2 :: ts) with clock := [751, m] }, _, b1, b2,
    rfl, rfl, rfl, rfl, rfl, rfl,
    loop_ready 12 _ 751 m [] t1 t2 ts rfl rfl hready, hb1, hb2, ?_, ?_, ?_, rfl, ?_, ?_, rfl⟩,
    by decide⟩
  · simp [hleds, requestTemperatures, World.emit, stripShow, applyWrites_trace, display_temps,
      display_degrees_celsius, afterSetup]
  · simp only [hleds, requestTemperatures, World.emit, stripShow]
    exact applyWrites_pixels_congr _ _ _ (applyWrites_pixels_congr _ _ _ rfl)
  · simp only [hleds, requestTemperatures, World.emit, stripShow]
  · intro hm
    subst hm
    rfl
  · show (set_leds_temp_display t1 t2 _).temps = ts
    rw [set_leds_temp_display_temps]
    rfl

/-- C4, the claim as first stated fails in two places. A tick of `loop` with the
clock at 0 on the power-up state requests nothing: it only reads the clock (the
first request is made by `setup`). And a tick with the clock at 751, when the
clock shows 760 after the new request, sets `nLastTempRequestTime` to 760 and
not to 751. -/
theorem timing_scenario_counterexample :
    loop 12 (World.boot [0] [] [.fin 65, .fin 58]) = some (World.boot [] [] [.fin 65, .fin 58]) ∧
    (World.boot [] [] [.fin 65, .fin 58]).trace = [] ∧
    (loop 12 (afterSetup [751, 760] [.fin 65, .fin 58])).map World.nLastTempRequestTime
      = some 760 ∧
    (loop 12 (afterSetup [751, 760] [.fin 65, .fin 58])).map World.nLastTempRequestTime
      ≠ some 751 := by
  refine ⟨by decide, rfl, by decide, by decide⟩

/-- C8: the keypad decode. For every settled ADC value from 0 to 1023 the
decode at the end of `read_LCD_buttons` gives RIGHT below 50, UP below 195,
DOWN below 380, LEFT below 555, SELECT below 790 and NONE from 790 on, so also
above 1000; the result is one of the six buttons; the early `> 1000` check does
not change what the threshold table gives; and `read_LCD_buttons` returns this
decode of the first reading once two successive readings agree within 10. -/
theorem decodeKey_thresholds (v : Int) (h0 : 0 ≤ v) (h1 : v ≤ 1023) :
    (v < 50 → decodeKey v = btnRIGHT) ∧
    (50 ≤ v → v < 195 → decodeKey v = btnUP) ∧
    (195 ≤ v → v < 380 → decodeKey v = btnDOWN) ∧
    (380 ≤ v → v < 555 → decodeKey v = btnLEFT) ∧
    (555 ≤ v → v < 790 → decodeKey v = btnSELECT) ∧
    (790 ≤ v → decodeKey v = btnNONE) ∧
    (1000 < v → decodeKey v = btnNONE) ∧
    decodeKey v ∈ [btnRIGHT, btnUP, btnDOWN, btnLEFT, btnSELECT, btnNONE] ∧
    decodeKey v = thresholdTable v ∧
    (∀ (w : World) (a b : Nat) (rest : List Nat), w.adc = a :: b :: rest →
      ((a % 1024 : Nat) : Int) = v →
      (((a % 1024 : Nat) : Int) - ((b % 1024 : Nat) : Int)).natAbs ≤ 10 →
      read_LCD_buttons w = some (decodeKey v,
        { w with adc_key_in1 := v, adc_key_in2 := ((b % 1024 : Nat) : Int), adc := rest,
                 trace := w.trace ++ [.delay 5] })) := by
  refine ⟨?_, ?_, ?_, ?_, ?_, ?_, ?_, ?_, ?_, ?_⟩
  · intro h
    simp only [decodeKey, thresholdTable]
    split_ifs <;> first | rfl | omega
  · intro ha hb
    simp only [decodeKey, thresholdTable]
    split_ifs <;> first | rfl | omega
  · intro ha hb
    simp only [decodeKey, thresholdTable]
    split_ifs <;> first | rfl | omega
  · intro ha hb
    simp only [decodeKey, thresholdTable]
    split_ifs <;> first | rfl | omega
  · intro ha hb
    simp only [decodeKey, thresholdTable]
    split_ifs <;> first | rfl | omega
  · intro ha
    simp only [decodeKey, thresholdTable]
    split_ifs <;> first | rfl | omega
  · intro ha
    simp only [decodeKey, thresholdTable]
    split_ifs <;> rfl
  · simp only [decodeKey, thresholdTable]
    split_ifs <;> simp
  · simp only [decodeKey, thresholdTable]
    split_ifs <;> first | rfl | omega
  · intro w a b rest hadc hv hs
    rw [← hv]
    exact read_LCD_buttons_settled w a b rest hadc hs

/-- C8 at a concrete input: the ADC reads 300 and then 305, which decodes to
DOWN. -/
theorem decodeKey_thresholds_witness :
    (0 : Int) ≤ 300 ∧ (300 : Int) ≤ 1023 ∧
    decodeKey 300 = btnDOWN ∧ decodeKey 300 = thresholdTable 300 ∧
    read_LCD_buttons (World.boot [] [300, 305] [])
      = some (decodeKey 300,
          { World.boot [] [300, 305] [] with
            adc_key_in1 := 300, adc_key_in2 := ((305 % 1024 : Nat) : Int), adc := [],
            trace := [] ++ [.delay 5] }) :=
  ⟨by decide, by decide,
    (decodeKey_thresholds 300 (by decide) (by decide)).2.2.1 (by decide) (by decide),
    (decodeKey_thresholds 300 (by decide) (by decide)).2.2.2.2.2.2.2.2.1,
    (decodeKey_thresholds 300 (by decide) (by decide)).2.2.2.2.2.2.2.2.2
      (World.boot [] [300, 305] []) 300 305 [] rfl (by decide) (by decide)⟩

/-- C9: the LED display is cumulative across ticks. On a strip that starts
dark, with both sensors reading 50 at one tick and 75 at the next, the first
tick leaves each window looking like the "too cold" pattern, and after the
second tick each window shows blue at offset+0 and red at offset+2 together:
the blue is left over from the tick before, nothing having cleared it, and the
window looks like none of the five band patterns. -/
theorem stale_colour_across_ticks :
    ∃ w1 w2 w3 : World,
      setup 12 (World.boot [0, 0, 0, 751, 751, 1502, 1502] [20, 20]
        [.fin 50, .fin 50, .fin 75, .fin 75]) = some w1 ∧
      loop 12 w1 = some w2 ∧ loop 12 w2 = some w3 ∧
      w1.leds = [0, 0, 0, 0, 0, 0, 0] ∧
      window 0 w2.leds = Band.tooCold.windowLook ∧
      window 4 w2.leds = Band.tooCold.windowLook ∧
      w3.leds = [COLOR_BLUE, 0, COLOR_RED, 0, COLOR_BLUE, 0, COLOR_RED] ∧
      window 0 w3.leds = [COLOR_BLUE, 0, COLOR_RED] ∧
      window 4 w3.leds = [COLOR_BLUE, 0, COLOR_RED] ∧
      (∀ b : Band, window 0 w3.leds ≠ b.windowLook) ∧
      (∀ b : Band, window 4 w3.leds ≠ b.windowLook) ∧
      Band.tooHot.windowLook = [0, 0, COLOR_RED] := by
  have h3 : ∀ b : Band, [COLOR_BLUE, 0, COLOR_RED] ≠ b.windowLook := by
    intro b
    cases b <;> decide
  have hw1 : DS18B20_WAIT 12 < sub32 751 0 := by decide
  have hw2 : DS18B20_WAIT 12 < sub32 1502 751 := by decide
  refine ⟨afterSetup [751, 751, 1502, 1502] [.fin 50, .fin 50, .fin 75, .fin 75], _, _,
    rfl, loop_ready 12 _ 751 751 [1502, 1502] (.fin 50) (.fin 50) [.fin 75, .fin 75] rfl rfl hw1,
    loop_ready 12 _ 1502 1502 [] (.fin 75) (.fin 75) [] rfl rfl hw2,
    rfl, by decide, by decide, by decide, by decide, by decide, ?_, ?_, by decide⟩
  · intro b
    exact h3 b
  · intro b
    exact h3 b

end Gluehwodisp
